import Mathlib

/-!
Shallow embedding of the task-delegation protocol of this repository
(src/agents/scripts/captain.py and src/agents/scripts/specialist_agent.py).

The Dispatcher (captain.py, CaptainOrchestrator) writes one JSON task payload
per role into a per-role slot (a file under /tmp/agent_tasks/<role>.json in the
source); the Worker (specialist_agent.py, SpecialistAgent) runs an indefinite
poll loop over its role's slot: it checks existence, reads the payload,
executes it, writes a result record into the per-role result slot, and only
then removes the task slot.  We model the slots as explicit state and the
worker body as a small-step machine whose micro-steps follow the statements of
poll_and_process (specialist_agent.py lines 272-296) in order, so that
interleavings and mid-cycle failures can be examined.

The per-specialization content generators (review_architecture,
analyze_database, ...) are pure string-template builders that the spec declares
out of scope and models as an opaque external execute capability; accordingly
the if/elif dispatch of execute_task is translated faithfully (the seven known
branch names, each receiving the payload's context, and the generic else
branch), with the branch bodies abstracted as a capability parameter
`cap : String → Ctx → Except String String` that may fail, exactly where the
source's try/except catches failures of the branch calls.
-/

namespace Hive

/-- Opaque context mapping carried by a task (the `context` dict of the
source); its contents are never inspected by the protocol logic. -/
abbrev Ctx := List (String × String)

/-- AgentTask dataclass of captain.py (lines 17-23). -/
structure AgentTask where
  agent_role : String
  task_description : String
  context : Ctx
  priority : Int
  deriving Repr, DecidableEq

/-- The JSON object written into a role's task slot.  captain.py
delegate_task (lines 91-97) always writes all five keys; the worker reads an
arbitrary JSON mapping, so each key is modelled as possibly absent. -/
structure TaskPayload where
  agent : Option String
  task : Option String
  context : Option Ctx
  persona_context : Option String
  priority : Option Int
  deriving Repr, DecidableEq

/-- The result dict built by specialist_agent.py execute_task
(lines 53-60). -/
structure ResultRecord where
  agent_id : String
  agent_role : String
  task : String
  status : String
  output : Option String
  errors : List String
  deriving Repr, DecidableEq

/-- Worker configuration, from SpecialistAgent.__init__
(specialist_agent.py lines 18-26). -/
structure Agent where
  agent_role : String
  agent_id : String
  specialist_type : String
  flashbacker_persona : String
  deriving Repr, DecidableEq

/-- SpecialistAgent.__init__ (specialist_agent.py lines 18-26): every field is
read from the environment with a default; no validation is performed and no
failure path exists, so initialisation always produces an agent. -/
def initAgent (env : String → Option String) : Agent :=
  let role := (env "AGENT_ROLE").getD "unknown"
  { agent_role := role
    agent_id := (env "AGENT_ID").getD (role ++ "-001")
    specialist_type := (env "SPECIALIST_TYPE").getD "general"
    flashbacker_persona := (env "FLASHBACKER_PERSONA").getD role }

/-- The seven specialization names matched by the if/elif chain of
execute_task (specialist_agent.py lines 64-77). -/
def knownSpecTypes : List String :=
  ["architecture", "database", "rust-translation", "infrastructure",
   "testing", "security-audit", "api-design"]

/-- The body of the try block of execute_task (lines 62-79): a known
specialization looks up the payload's context (a missing key raises, and is
caught by the surrounding except) and calls the corresponding generator,
abstracted here as the external capability; any other specialization produces
the inline generic string and touches neither the capability nor the
context. -/
def runBranch (cap : String → Ctx → Except String String)
    (sptype : String) (pctx : Option Ctx) : Except String String :=
  if sptype ∈ knownSpecTypes then
    match pctx with
    | none => Except.error "KeyError: context"
    | some c => cap sptype c
  else
    Except.ok ("Generic processing for " ++ sptype)

/-- execute_task (specialist_agent.py lines 46-88).  The method first reads
task['task'] (line 48, outside the try block): a payload lacking that key
raises out of the method before the result dict is constructed.  Otherwise the
result record is built with status "processing", the try block runs the
specialization branch, and its outcome is folded into the record: success sets
output and status "completed"; a caught failure sets status "error" and
appends the failure's message to errors.  (The persona context fetched at line
51 swallows its own failures and is not used in the record, so it is not
modelled.) -/
def execute_task (a : Agent) (cap : String → Ctx → Except String String)
    (p : TaskPayload) : Except String ResultRecord :=
  match p.task with
  | none => Except.error "KeyError: task"
  | some desc =>
    let base : ResultRecord :=
      { agent_id := a.agent_id
        agent_role := a.agent_role
        task := desc
        status := "processing"
        output := none
        errors := [] }
    match runBranch cap a.specialist_type p.context with
    | Except.ok out =>
        Except.ok { base with status := "completed", output := some out }
    | Except.error e =>
        Except.ok { base with status := "error", errors := base.errors ++ [e] }

/-- The two per-role slots a worker interacts with: the task slot
(/tmp/agent_tasks/<role>.json) and the result slot
(/tmp/agent_results/<role>_result.json). -/
structure SlotState where
  taskSlot : Option TaskPayload
  resultSlot : Option ResultRecord
  deriving Repr, DecidableEq

/-- Position of a worker inside the body of its poll loop
(poll_and_process, specialist_agent.py lines 272-296).  idle is the top of
the while loop; claimed holds the payload just read from the task slot;
executed holds the record returned by execute_task; published is the point
after the result write and before the unlink. -/
inductive Phase where
  | idle
  | claimed (p : TaskPayload)
  | executed (r : ResultRecord)
  | published
  deriving Repr, DecidableEq

/-- One micro-step of a worker's loop body, acting on its phase and the
shared slots.  storeFails says whether the store operation attempted by this
step (existence check / read, result write, or unlink) raises; a raise lands
in the catch-all except of lines 294-296, which sleeps and restarts the loop
body, so the worker drops back to idle with its locals discarded.

  - idle with a present task slot: exists() and read_text/json.loads
    (lines 274-276) — a non-destructive read, the slot keeps the payload;
  - idle with an empty slot: time.sleep(5) (line 289);
  - claimed: result = self.execute_task(task) (line 277); a raise inside
    execute_task (a payload lacking the task key) is caught at line 294;
  - executed: result_file.write_text (line 281) fills the result slot;
  - published: self.task_file.unlink() (line 285) empties the task slot. -/
def stepOne (a : Agent) (cap : String → Ctx → Except String String)
    (storeFails : Bool) : Phase → SlotState → Phase × SlotState
  | Phase.idle, s =>
    match s.taskSlot with
    | some p => if storeFails then (Phase.idle, s) else (Phase.claimed p, s)
    | none => (Phase.idle, s)
  | Phase.claimed p, s =>
    match execute_task a cap p with
    | Except.ok r => (Phase.executed r, s)
    | Except.error _ => (Phase.idle, s)
  | Phase.executed r, s =>
    if storeFails then (Phase.idle, s)
    else (Phase.published, { s with resultSlot := some r })
  | Phase.published, s =>
    if storeFails then (Phase.idle, s)
    else (Phase.idle, { s with taskSlot := none })

/-- A worker together with the slots of its role. -/
structure WorkerState where
  phase : Phase
  slots : SlotState
  deriving Repr, DecidableEq

/-- One micro-step on a WorkerState. -/
def microStep (a : Agent) (cap : String → Ctx → Except String String)
    (storeFails : Bool) (w : WorkerState) : WorkerState :=
  let r := stepOne a cap storeFails w.phase w.slots
  ⟨r.1, r.2⟩

/-- Run a worker through a schedule of micro-steps; each Bool says whether
the store operation of that step fails. -/
def runWorker (a : Agent) (cap : String → Ctx → Except String String) :
    List Bool → WorkerState → WorkerState
  | [], w => w
  | f :: fs, w => runWorker a cap fs (microStep a cap f w)

/-- Two workers configured for the same role, sharing that role's slots:
the racing-claim scenario of the spec. -/
structure TwoWorkers where
  phaseA : Phase
  phaseB : Phase
  slots : SlotState
  deriving Repr, DecidableEq

/-- Which of the two workers takes the next micro-step. -/
inductive Who where
  | A
  | B
  deriving Repr, DecidableEq

/-- Interleaved execution: the chosen worker performs one micro-step against
the shared slots. -/
def twoStep (a : Agent) (cap : String → Ctx → Except String String)
    (storeFails : Bool) (w : Who) (t : TwoWorkers) : TwoWorkers :=
  match w with
  | Who.A =>
    let r := stepOne a cap storeFails t.phaseA t.slots
    ⟨r.1, t.phaseB, r.2⟩
  | Who.B =>
    let r := stepOne a cap storeFails t.phaseB t.slots
    ⟨t.phaseA, r.1, r.2⟩

/-- Run an interleaving schedule over the two workers. -/
def runTwo (a : Agent) (cap : String → Ctx → Except String String) :
    List (Who × Bool) → TwoWorkers → TwoWorkers
  | [], t => t
  | (w, f) :: rest, t => runTwo a cap rest (twoStep a cap f w t)

/-- The role-keyed task side of the Channel Store seen by the Dispatcher:
one task slot per role name (the files of /tmp/agent_tasks/). -/
abbrev ChannelStore := String → Option TaskPayload

/-- Writing a role's task slot: task_file.write_text in delegate_task
(captain.py line 102) — an unconditional overwrite of the slot. -/
def publishTask (role : String) (p : TaskPayload) (s : ChannelStore) :
    ChannelStore :=
  fun x => if x = role then some p else s x

/-- What a worker's pickup observes for a role: the slot's current payload
(the exists check plus read of poll_and_process). -/
def tryClaimRead (role : String) (s : ChannelStore) : Option TaskPayload :=
  s role

/-- The task_payload dict built by delegate_task (captain.py lines 91-97);
personaOf models flashbacker.get_persona_context, which never raises (it
returns an empty string on failure). -/
def mkPayload (personaOf : String → String) (t : AgentTask) : TaskPayload :=
  { agent := some t.agent_role
    task := some t.task_description
    context := some t.context
    persona_context := some (personaOf t.agent_role)
    priority := some t.priority }

/-- delegate_task (captain.py lines 83-105): fetch the persona context,
build the payload, and write it to the role's slot.  The method has no
try/except: a failing write (failOn names the roles whose slot write raises)
propagates to the caller.  On success it returns the "delegated" status
value. -/
def delegate_task (failOn : String → Bool) (personaOf : String → String)
    (t : AgentTask) (s : ChannelStore) :
    Except String (ChannelStore × String) :=
  if failOn t.agent_role then
    Except.error ("write failed: " ++ t.agent_role)
  else
    Except.ok (publishTask t.agent_role (mkPayload personaOf t) s, "delegated")

/-- Stable insertion into a list sorted by descending key: the new element
goes before the first strictly smaller key and after every earlier element of
equal or larger key. -/
def insertDesc (key : α → Int) (x : α) : List α → List α
  | [] => [x]
  | y :: ys =>
    if key y ≤ key x then x :: y :: ys else y :: insertDesc key x ys

/-- Stable descending sort by key.  tasks.sort(key=lambda t: t.priority,
reverse=True) at captain.py line 185 is Python's stable sort with the key
order reversed, which keeps equal-key elements in their original order; the
stable descending ordering is unique, so this insertion sort computes the
same list. -/
def sortDesc (key : α → Int) : List α → List α
  | [] => []
  | x :: xs => insertDesc key x (sortDesc key xs)

/-- The for loop of process_commercerack_migration (captain.py lines
187-190): delegate each task of the (already sorted) list in order.  Returns
the final store, the trace of tasks successfully published in order, and the
error that escaped the loop, if any: delegate_task is not guarded, so its
first failure aborts the remaining iterations while the slots already
written persist. -/
def delegateBatch (failOn : String → Bool) (personaOf : String → String) :
    List AgentTask → ChannelStore →
    ChannelStore × List AgentTask × Option String
  | [], s => (s, [], none)
  | t :: ts, s =>
    match delegate_task failOn personaOf t s with
    | Except.error e => (s, [], some e)
    | Except.ok (s2, _) =>
      let r := delegateBatch failOn personaOf ts s2
      (r.1, t :: r.2.1, r.2.2)

/-- process_commercerack_migration (captain.py lines 184-190): sort the
batch by descending priority (stable), then delegate in that order. -/
def processBatch (failOn : String → Bool) (personaOf : String → String)
    (batch : List AgentTask) (s : ChannelStore) :
    ChannelStore × List AgentTask × Option String :=
  delegateBatch failOn personaOf (sortDesc AgentTask.priority batch) s

/-- Index-decorate a list starting at n, for stating sort stability. -/
def decorate (n : Nat) : List α → List (Nat × α)
  | [] => []
  | x :: xs => (n, x) :: decorate (n + 1) xs

/-- The ordering a stable descending sort realises on an index-decorated
list: strictly larger priority first, and among equal priorities the smaller
original index first. -/
def StableDesc (key : α → Int) (a b : Nat × α) : Prop :=
  key b.2 < key a.2 ∨ (key a.2 = key b.2 ∧ a.1 < b.1)

/-- Sample capability that always succeeds. -/
def sampleCap : String → Ctx → Except String String :=
  fun _ _ => Except.ok "out"

/-- Sample capability that always raises. -/
def failCap : String → Ctx → Except String String :=
  fun s _ => Except.error ("boom " ++ s)

/-- The agent obtained from an empty environment: every field defaulted. -/
def sampleAgent : Agent := initAgent (fun _ => none)

/-- A worker configured with the known specialization "database". -/
def dbAgent : Agent :=
  { agent_role := "database-architect"
    agent_id := "db-001"
    specialist_type := "database"
    flashbacker_persona := "db" }

/-- A well-formed task payload (all keys present). -/
def samplePayload : TaskPayload :=
  { agent := some "r"
    task := some "d"
    context := some []
    persona_context := some ""
    priority := some 5 }

/-- A payload whose mapping lacks the task key. -/
def keylessPayload : TaskPayload :=
  { agent := some "r"
    task := none
    context := some []
    persona_context := some ""
    priority := some 5 }

/-- Concrete batch tasks with priorities 3, 9, 1, 9 in declaration order. -/
def exTask1 : AgentTask := ⟨"qa", "t1", [], 3⟩

/-- Second task of the concrete batch (priority 9, first of the tie). -/
def exTask2 : AgentTask := ⟨"architect", "t2", [], 9⟩

/-- Third task of the concrete batch (priority 1). -/
def exTask3 : AgentTask := ⟨"devops", "t3", [], 1⟩

/-- Fourth task of the concrete batch (priority 9, second of the tie). -/
def exTask4 : AgentTask := ⟨"security", "t4", [], 9⟩

/-- A task naming a role no worker is configured for. -/
def strayTask : AgentTask := ⟨"no-such-role", "stray work", [], 1⟩

/-- Running a worker over a concatenated schedule runs the two parts in
sequence. -/
theorem runWorker_append (a : Agent) (cap : String → Ctx → Except String String)
    (xs ys : List Bool) (w : WorkerState) :
    runWorker a cap (xs ++ ys) w = runWorker a cap ys (runWorker a cap xs w) := by
  induction xs generalizing w with
  | nil => rfl
  | cons f fs ih => simp [runWorker, ih]

/-- On a payload that has its task key, execute_task always returns a record
(built from the branch outcome) whose task field echoes the description. -/
theorem execute_task_ok (a : Agent) (cap : String → Ctx → Except String String)
    (p : TaskPayload) (desc : String) (h : p.task = some desc) :
    ∃ r : ResultRecord, execute_task a cap p = Except.ok r ∧ r.task = desc := by
  cases hb : runBranch cap a.specialist_type p.context with
  | ok out =>
    exact ⟨⟨a.agent_id, a.agent_role, desc, "completed", some out, []⟩,
      by simp [execute_task, h, hb], rfl⟩
  | error e =>
    exact ⟨⟨a.agent_id, a.agent_role, desc, "error", none, [e]⟩,
      by simp [execute_task, h, hb], rfl⟩

/-- A full failure-free loop body from idle over a present, well-formed task:
read, execute, publish the result, unlink the task slot, and return to the
top of the loop. -/
theorem cycle_publishes (a : Agent) (cap : String → Ctx → Except String String)
    (p : TaskPayload) (desc : String) (rs : Option ResultRecord)
    (h : p.task = some desc) :
    ∃ r : ResultRecord,
      runWorker a cap [false, false, false, false]
          ⟨Phase.idle, ⟨some p, rs⟩⟩ = ⟨Phase.idle, ⟨none, some r⟩⟩ ∧
      r.task = desc := by
  obtain ⟨r, hr, ht⟩ := execute_task_ok a cap p desc h
  exact ⟨r, by simp [runWorker, microStep, stepOne, hr], ht⟩

/-- A worker facing a payload without the task key cycles between the loop
top and the failed execute call, never changing the slots. -/
theorem stall_invariant (a : Agent) (cap : String → Ctx → Except String String)
    (p : TaskPayload) (rs : Option ResultRecord) (h : p.task = none) :
    ∀ (n : Nat) (w : WorkerState),
      (w = ⟨Phase.idle, ⟨some p, rs⟩⟩ ∨ w = ⟨Phase.claimed p, ⟨some p, rs⟩⟩) →
      (runWorker a cap (List.replicate n false) w = ⟨Phase.idle, ⟨some p, rs⟩⟩ ∨
       runWorker a cap (List.replicate n false) w =
         ⟨Phase.claimed p, ⟨some p, rs⟩⟩) := by
  intro n
  induction n with
  | zero => intro w hw; simpa [runWorker] using hw
  | succ m ih =>
    intro w hw
    have hstep :
        microStep a cap false w = ⟨Phase.idle, ⟨some p, rs⟩⟩ ∨
        microStep a cap false w = ⟨Phase.claimed p, ⟨some p, rs⟩⟩ := by
      rcases hw with hw | hw <;> subst hw
      · exact Or.inr (by simp [microStep, stepOne])
      · exact Or.inl (by simp [microStep, stepOne, execute_task, h])
    have : List.replicate (m + 1) false = false :: List.replicate m false :=
      List.replicate_succ false m
    rw [this]
    exact ih (microStep a cap false w) hstep

/-- With no write failures, the delegation loop publishes every task of the
list, in list order. -/
theorem delegateBatch_trace (personaOf : String → String)
    (l : List AgentTask) (s : ChannelStore) :
    (delegateBatch (fun _ => false) personaOf l s).2.1 = l := by
  induction l generalizing s with
  | nil => rfl
  | cons t ts ih => simp [delegateBatch, delegate_task, ih]

/-- Stable insertion is a permutation: it only moves the new element in. -/
theorem insertDesc_perm (key : α → Int) (x : α) (l : List α) :
    List.Perm (insertDesc key x l) (x :: l) := by
  induction l with
  | nil => exact List.Perm.refl _
  | cons y ys ih =>
    by_cases hc : key y ≤ key x
    · simp [insertDesc, hc]
    · simp only [insertDesc, hc, if_neg]
      exact (List.Perm.cons y ih).trans (List.Perm.swap x y ys)

/-- Stable descending sort is a permutation of its input. -/
theorem sortDesc_perm (key : α → Int) (l : List α) :
    List.Perm (sortDesc key l) l := by
  induction l with
  | nil => exact List.Perm.refl _
  | cons x xs ih =>
    exact (insertDesc_perm key x (sortDesc key xs)).trans (List.Perm.cons x ih)

/-- Membership in a stable insertion. -/
theorem mem_insertDesc (key : α → Int) (x a : α) (l : List α) :
    a ∈ insertDesc key x l ↔ a = x ∨ a ∈ l := by
  rw [(insertDesc_perm key x l).mem_iff]
  simp

/-- Inserting an element whose index is below every index already present
preserves the stable descending ordering. -/
theorem insertDesc_pairwise (key : α → Int) (x : Nat × α) (l : List (Nat × α))
    (hl : l.Pairwise (StableDesc key)) (hx : ∀ z ∈ l, x.1 < z.1) :
    (insertDesc (fun p => key p.2) x l).Pairwise (StableDesc key) := by
  induction l with
  | nil => simp [insertDesc, StableDesc]
  | cons y ys ih =>
    rcases List.pairwise_cons.mp hl with ⟨hy, hys⟩
    by_cases hc : key y.2 ≤ key x.2
    · simp only [insertDesc, hc, if_pos]
      refine List.pairwise_cons.mpr ⟨?_, hl⟩
      intro z hz
      have hzle : key z.2 ≤ key x.2 := by
        rcases List.mem_cons.mp hz with hz | hz
        · exact hz ▸ hc
        · rcases hy z hz with hlt | ⟨heq, _⟩
          · exact le_trans (le_of_lt hlt) hc
          · exact le_trans (le_of_eq heq.symm) hc
      rcases lt_or_eq_of_le hzle with hlt | heq
      · exact Or.inl hlt
      · exact Or.inr ⟨heq.symm, hx z hz⟩
    · simp only [insertDesc, hc, if_neg]
      refine List.pairwise_cons.mpr ⟨?_, ?_⟩
      · intro z hz
        rcases (mem_insertDesc _ x z ys).mp hz with hz | hz
        · exact hz ▸ Or.inl (lt_of_not_le hc)
        · exact hy z hz
      · exact ih hys (fun z hz => hx z (List.mem_cons_of_mem y hz))

/-- Sorting an index-decorated list whose indices increase yields a list
ordered by descending key with ties in index order: stability. -/
theorem sortDesc_stable (key : α → Int) (l : List (Nat × α))
    (hl : l.Pairwise (fun a b => a.1 < b.1)) :
    (sortDesc (fun p => key p.2) l).Pairwise (StableDesc key) := by
  induction l with
  | nil => simp [sortDesc]
  | cons x xs ih =>
    rcases List.pairwise_cons.mp hl with ⟨hx, hxs⟩
    refine insertDesc_pairwise key x (sortDesc (fun p => key p.2) xs) (ih hxs) ?_
    intro z hz
    exact hx z ((sortDesc_perm (fun p => key p.2) xs).mem_iff.mp hz)

/-- Every index produced by decorate n is at least n. -/
theorem decorate_lower (l : List α) :
    ∀ (n : Nat), ∀ z ∈ decorate n l, n ≤ z.1 := by
  induction l with
  | nil => intro n z hz; simp [decorate] at hz
  | cons x xs ih =>
    intro n z hz
    rcases List.mem_cons.mp hz with hz | hz
    · exact hz ▸ le_refl n
    · exact le_trans (Nat.le_succ n) (ih (n + 1) z hz)

/-- The indices of a decorated list strictly increase. -/
theorem decorate_pairwise (l : List α) :
    ∀ (n : Nat), (decorate n l).Pairwise (fun a b => a.1 < b.1) := by
  induction l with
  | nil => intro n; simp [decorate]
  | cons x xs ih =>
    intro n
    refine List.pairwise_cons.mpr ⟨?_, ih (n + 1)⟩
    intro z hz
    exact lt_of_lt_of_le (Nat.lt_succ_self n) (decorate_lower xs (n + 1) z hz)

/-- Dropping the indices commutes with stable insertion. -/
theorem map_snd_insertDesc (key : α → Int) (x : Nat × α) (l : List (Nat × α)) :
    (insertDesc (fun p => key p.2) x l).map Prod.snd =
      insertDesc key x.2 (l.map Prod.snd) := by
  induction l with
  | nil => rfl
  | cons y ys ih =>
    by_cases hc : key y.2 ≤ key x.2
    · simp [insertDesc, hc]
    · simp [insertDesc, hc, ih]

/-- Dropping the indices commutes with the stable descending sort. -/
theorem map_snd_sortDesc (key : α → Int) (l : List (Nat × α)) :
    (sortDesc (fun p => key p.2) l).map Prod.snd = sortDesc key (l.map Prod.snd) := by
  induction l with
  | nil => rfl
  | cons x xs ih => simp [sortDesc, map_snd_insertDesc, ih]

/-- Decorating and dropping the indices is the identity. -/
theorem map_snd_decorate (l : List α) :
    ∀ (n : Nat), (decorate n l).map Prod.snd = l := by
  induction l with
  | nil => intro n; rfl
  | cons x xs ih => intro n; simp [decorate, ih]

/-- C1 counterexample: from one pending task and two idle workers of the
same role, letting each perform its claim step leaves BOTH workers holding
the task and the task slot still occupied — the claim step neither removes
the slot nor excludes the other caller, refuting atomic read-and-remove and
the exactly-one-receiver property. -/
theorem c1_atomic_claim_counterexample :
    runTwo sampleAgent sampleCap [(Who.A, false), (Who.B, false)]
        ⟨Phase.idle, Phase.idle, ⟨some samplePayload, none⟩⟩ =
      ⟨Phase.claimed samplePayload, Phase.claimed samplePayload,
        ⟨some samplePayload, none⟩⟩ ∧
    (runTwo sampleAgent sampleCap [(Who.A, false), (Who.B, false)]
        ⟨Phase.idle, Phase.idle, ⟨some samplePayload, none⟩⟩).slots.taskSlot ≠
      none := by
  refine ⟨rfl, ?_⟩
  decide

/-- C1 amended: the claim is a non-destructive read.  Immediately after the
claim step the worker holds the task but the task slot still contains it;
the slot is emptied only by the final step of the cycle, after the result
has been published; consequently two claim attempts interleaved before the
cycle finishes both receive the same task. -/
theorem c1_claim_reads_without_removing (a : Agent)
    (cap : String → Ctx → Except String String) (p : TaskPayload)
    (rs : Option ResultRecord) (s : SlotState) :
    stepOne a cap false Phase.idle ⟨some p, rs⟩ =
      (Phase.claimed p, ⟨some p, rs⟩) ∧
    stepOne a cap false Phase.published s = (Phase.idle, ⟨none, s.resultSlot⟩) ∧
    runTwo a cap [(Who.A, false), (Who.B, false)]
        ⟨Phase.idle, Phase.idle, ⟨some p, rs⟩⟩ =
      ⟨Phase.claimed p, Phase.claimed p, ⟨some p, rs⟩⟩ := by
  exact ⟨rfl, rfl, rfl⟩

/-- C2: once a worker has read a task payload carrying its description, the
failure-free loop body publishes exactly one result record into the result
slot — whatever the execution outcome — whose task field echoes the claimed
description, clears the task slot, and returns to the top of the loop. -/
theorem c2_every_claim_yields_result (a : Agent)
    (cap : String → Ctx → Except String String) (p : TaskPayload)
    (desc : String) (rs : Option ResultRecord) (h : p.task = some desc) :
    Option.map ResultRecord.task
        (runWorker a cap [false, false, false, false]
          ⟨Phase.idle, ⟨some p, rs⟩⟩).slots.resultSlot = some desc ∧
    (runWorker a cap [false, false, false, false]
      ⟨Phase.idle, ⟨some p, rs⟩⟩).slots.taskSlot = none ∧
    (runWorker a cap [false, false, false, false]
      ⟨Phase.idle, ⟨some p, rs⟩⟩).phase = Phase.idle := by
  obtain ⟨r, heq, ht⟩ := cycle_publishes a cap p desc rs h
  rw [heq]
  simp [ht]

/-- C2 witness: the generic sample worker processing the sample payload. -/
theorem c2_every_claim_yields_result_witness :
    samplePayload.task = some "d" ∧
    (Option.map ResultRecord.task
        (runWorker sampleAgent sampleCap [false, false, false, false]
          ⟨Phase.idle, ⟨some samplePayload, none⟩⟩).slots.resultSlot =
        some "d" ∧
      (runWorker sampleAgent sampleCap [false, false, false, false]
        ⟨Phase.idle, ⟨some samplePayload, none⟩⟩).slots.taskSlot = none ∧
      (runWorker sampleAgent sampleCap [false, false, false, false]
        ⟨Phase.idle, ⟨some samplePayload, none⟩⟩).phase = Phase.idle) :=
  ⟨rfl, c2_every_claim_yields_result sampleAgent sampleCap samplePayload "d"
    none rfl⟩

/-- C3 counterexample: when the result write fails, the worker is back at
the top of its loop (idle) with no result stored and no retained record to
retry — the already-computed result was discarded, refuting that publishing
of that same result is retried before the worker returns to idle. -/
theorem c3_publish_retry_counterexample :
    runWorker sampleAgent sampleCap [false, false, true]
        ⟨Phase.idle, ⟨some samplePayload, none⟩⟩ =
      ⟨Phase.idle, ⟨some samplePayload, none⟩⟩ ∧
    (runWorker sampleAgent sampleCap [false, false, true]
        ⟨Phase.idle, ⟨some samplePayload, none⟩⟩).slots.resultSlot = none := by
  exact ⟨rfl, rfl⟩

/-- C3 amended: a failed result write is caught and the loop retries after
the poll interval, but the computed result is discarded with the rest of the
iteration locals; because the task slot was not yet removed, the next cycle
re-reads and re-executes the same task, and a freshly recomputed result for
the same description is then published. -/
theorem c3_publish_failure_reexecutes (a : Agent)
    (cap : String → Ctx → Except String String) (p : TaskPayload)
    (desc : String) (rs : Option ResultRecord) (h : p.task = some desc) :
    runWorker a cap [false, false, true] ⟨Phase.idle, ⟨some p, rs⟩⟩ =
      ⟨Phase.idle, ⟨some p, rs⟩⟩ ∧
    Option.map ResultRecord.task
        (runWorker a cap [false, false, true, false, false, false, false]
          ⟨Phase.idle, ⟨some p, rs⟩⟩).slots.resultSlot = some desc ∧
    (runWorker a cap [false, false, true, false, false, false, false]
      ⟨Phase.idle, ⟨some p, rs⟩⟩).slots.taskSlot = none := by
  obtain ⟨r, hr, hrt⟩ := execute_task_ok a cap p desc h
  have h3 : runWorker a cap [false, false, true] ⟨Phase.idle, ⟨some p, rs⟩⟩ =
      ⟨Phase.idle, ⟨some p, rs⟩⟩ := by
    simp [runWorker, microStep, stepOne, hr]
  have h7 : ([false, false, true, false, false, false, false] : List Bool) =
      [false, false, true] ++ [false, false, false, false] := rfl
  obtain ⟨r2, heq, ht2⟩ := cycle_publishes a cap p desc rs h
  refine ⟨h3, ?_, ?_⟩
  · rw [h7, runWorker_append, h3, heq]
    simp [ht2]
  · rw [h7, runWorker_append, h3, heq]

/-- C3 amended witness: the sample worker with a failing third store step. -/
theorem c3_publish_failure_reexecutes_witness :
    samplePayload.task = some "d" ∧
    (runWorker sampleAgent sampleCap [false, false, true]
        ⟨Phase.idle, ⟨some samplePayload, none⟩⟩ =
      ⟨Phase.idle, ⟨some samplePayload, none⟩⟩ ∧
    Option.map ResultRecord.task
        (runWorker sampleAgent sampleCap
          [false, false, true, false, false, false, false]
          ⟨Phase.idle, ⟨some samplePayload, none⟩⟩).slots.resultSlot =
      some "d" ∧
    (runWorker sampleAgent sampleCap
      [false, false, true, false, false, false, false]
      ⟨Phase.idle, ⟨some samplePayload, none⟩⟩).slots.taskSlot = none) :=
  ⟨rfl, c3_publish_failure_reexecutes sampleAgent sampleCap samplePayload "d"
    none rfl⟩

/-- C4 counterexample: a batch of two tasks for distinct roles in which only
the first publish fails: the loop aborts with the propagated failure, the
trace of performed publishes is empty, and the second task is never
published even though its own publish would have succeeded — refuting that
remaining tasks are still published. -/
theorem c4_batch_isolation_counterexample :
    (processBatch (fun r => r == "architect") (fun _ => "")
        [exTask2, exTask1] (fun _ => none)).2 =
      ([], some "write failed: architect") ∧
    (processBatch (fun r => r == "architect") (fun _ => "")
        [exTask2, exTask1] (fun _ => none)).1 "qa" = none := by
  exact ⟨rfl, rfl⟩

/-- C4 amended: delegate_task is unguarded, so the first failing publish
propagates out of the delegation loop: the tasks before it remain published
and traced, while the failing task and every later task of the batch are not
published at all. -/
theorem c4_publish_failure_aborts_batch (failOn : String → Bool)
    (personaOf : String → String) (pre : List AgentTask) (t : AgentTask)
    (ts : List AgentTask) (s : ChannelStore)
    (hpre : ∀ x ∈ pre, failOn x.agent_role = false)
    (h : failOn t.agent_role = true) :
    delegateBatch failOn personaOf (pre ++ t :: ts) s =
      ((delegateBatch failOn personaOf pre s).1, pre,
        some ("write failed: " ++ t.agent_role)) := by
  induction pre generalizing s with
  | nil => simp [delegateBatch, delegate_task, h]
  | cons x xs ih =>
    have hx : failOn x.agent_role = false := hpre x (List.mem_cons_self x xs)
    have hxs : ∀ y ∈ xs, failOn y.agent_role = false :=
      fun y hy => hpre y (List.mem_cons_of_mem x hy)
    simp [delegateBatch, delegate_task, hx,
      ih (publishTask x.agent_role (mkPayload personaOf x) s) hxs]

/-- C4 amended witness: one succeeding publish, then a failing one, then a
task that is never reached. -/
theorem c4_publish_failure_aborts_batch_witness :
    (∀ x ∈ [exTask1], (fun r => r == "architect") x.agent_role = false) ∧
    ((fun r => r == "architect") exTask2.agent_role = true) ∧
    delegateBatch (fun r => r == "architect") (fun _ => "")
        ([exTask1] ++ exTask2 :: [exTask3]) (fun _ => none) =
      ((delegateBatch (fun r => r == "architect") (fun _ => "") [exTask1]
          (fun _ => none)).1, [exTask1],
        some ("write failed: " ++ exTask2.agent_role)) :=
  ⟨by decide, by decide,
    c4_publish_failure_aborts_batch (fun r => r == "architect") (fun _ => "")
      [exTask1] exTask2 [exTask3] (fun _ => none) (by decide) (by decide)⟩

/-- C5: the dispatcher publishes a batch in the order given by the stable
descending sort on priority: the trace of performed publishes equals that
sort, the sort permutes the batch, on the index-decorated batch it is
ordered by strictly descending priority with ties in original batch order,
and the concrete batch with priorities 3, 9, 1, 9 is published in the order
9 (first), 9 (second), 3, 1. -/
theorem c5_priority_order (batch : List AgentTask)
    (personaOf : String → String) (s : ChannelStore) :
    (processBatch (fun _ => false) personaOf batch s).2.1 =
      sortDesc AgentTask.priority batch ∧
    List.Perm (sortDesc AgentTask.priority batch) batch ∧
    (sortDesc (fun p => p.2.priority) (decorate 0 batch)).Pairwise
      (StableDesc AgentTask.priority) ∧
    (sortDesc (fun p => p.2.priority) (decorate 0 batch)).map Prod.snd =
      sortDesc AgentTask.priority batch ∧
    (processBatch (fun _ => false) personaOf
        [exTask1, exTask2, exTask3, exTask4] s).2.1 =
      [exTask2, exTask4, exTask1, exTask3] := by
  refine ⟨delegateBatch_trace personaOf _ s, sortDesc_perm _ batch,
    sortDesc_stable _ _ (decorate_pairwise batch 0), ?_, ?_⟩
  · rw [map_snd_sortDesc, map_snd_decorate]
  · rw [processBatch, delegateBatch_trace]
    decide

/-- C6: publishing to a role whose slot already holds an unclaimed task
overwrites it — the store after publishing the first then the second task
equals the store after publishing the second alone, the subsequent claim
read sees exactly the second payload, and the success path of delegate_task
is precisely this slot write. -/
theorem c6_last_write_wins (role d1 d2 : String) (ctx1 ctx2 : Ctx)
    (pr1 pr2 : Int) (personaOf : String → String) (s : ChannelStore) :
    publishTask role (mkPayload personaOf ⟨role, d2, ctx2, pr2⟩)
        (publishTask role (mkPayload personaOf ⟨role, d1, ctx1, pr1⟩) s) =
      publishTask role (mkPayload personaOf ⟨role, d2, ctx2, pr2⟩) s ∧
    tryClaimRead role
        (publishTask role (mkPayload personaOf ⟨role, d2, ctx2, pr2⟩)
          (publishTask role (mkPayload personaOf ⟨role, d1, ctx1, pr1⟩) s)) =
      some (mkPayload personaOf ⟨role, d2, ctx2, pr2⟩) ∧
    delegate_task (fun _ => false) personaOf ⟨role, d1, ctx1, pr1⟩ s =
      Except.ok (publishTask role (mkPayload personaOf ⟨role, d1, ctx1, pr1⟩) s,
        "delegated") := by
  refine ⟨?_, ?_, rfl⟩
  · funext x
    by_cases hx : x = role <;> simp [publishTask, hx]
  · simp [tryClaimRead, publishTask]

/-- C7: the outcome of the specialization branch is isolated into the result
record — a raising capability yields status error with the single failure
message in errors, a succeeding capability yields status completed with its
value as output — and in either case the loop body ends back at the top of
the poll loop. -/
theorem c7_execution_failure_isolation (a : Agent)
    (cap : String → Ctx → Except String String) (p : TaskPayload)
    (desc : String) (c : Ctx) (rs : Option ResultRecord) (msg v : String)
    (ht : p.task = some desc) (hc : p.context = some c)
    (hk : a.specialist_type ∈ knownSpecTypes) :
    (cap a.specialist_type c = Except.error msg →
      execute_task a cap p =
        Except.ok ⟨a.agent_id, a.agent_role, desc, "error", none, [msg]⟩) ∧
    (cap a.specialist_type c = Except.ok v →
      execute_task a cap p =
        Except.ok ⟨a.agent_id, a.agent_role, desc, "completed", some v, []⟩) ∧
    (runWorker a cap [false, false, false, false]
      ⟨Phase.idle, ⟨some p, rs⟩⟩).phase = Phase.idle := by
  refine ⟨?_, ?_, ?_⟩
  · intro hf; simp [execute_task, ht, runBranch, hk, hc, hf]
  · intro hf; simp [execute_task, ht, runBranch, hk, hc, hf]
  · obtain ⟨r, heq, _⟩ := cycle_publishes a cap p desc rs ht
    rw [heq]

/-- C7 witness: the database worker with an always-raising capability. -/
theorem c7_execution_failure_isolation_witness :
    samplePayload.task = some "d" ∧ samplePayload.context = some [] ∧
    dbAgent.specialist_type ∈ knownSpecTypes ∧
    ((failCap dbAgent.specialist_type [] = Except.error "boom database" →
      execute_task dbAgent failCap samplePayload =
        Except.ok ⟨"db-001", "database-architect", "d", "error", none,
          ["boom database"]⟩) ∧
    (failCap dbAgent.specialist_type [] = Except.ok "x" →
      execute_task dbAgent failCap samplePayload =
        Except.ok ⟨"db-001", "database-architect", "d", "completed", some "x",
          []⟩) ∧
    (runWorker dbAgent failCap [false, false, false, false]
      ⟨Phase.idle, ⟨some samplePayload, none⟩⟩).phase = Phase.idle) :=
  ⟨rfl, rfl, by decide,
    c7_execution_failure_isolation dbAgent failCap samplePayload "d" [] none
      "boom database" "x" rfl rfl (by decide)⟩

/-- C8 counterexample: with an empty environment the worker constructor
succeeds, defaulting the role to the string unknown instead of failing fast;
and delegating a task for a role no worker has succeeds, writing the slot
and reporting delegated instead of skipping it. -/
theorem c8_unknown_role_counterexample :
    initAgent (fun _ => none) =
      ⟨"unknown", "unknown-001", "general", "unknown"⟩ ∧
    Except.map (fun q => (q.1 "no-such-role", q.2))
        (delegate_task (fun _ => false) (fun _ => "") strayTask
          (fun _ => none)) =
      Except.ok (some (mkPayload (fun _ => "") strayTask), "delegated") := by
  exact ⟨rfl, rfl⟩

/-- C8 amended: neither component validates roles.  Worker startup reads the
role from the environment with the default value unknown and never fails;
the dispatcher publishes a payload under any role name unconditionally and
reports it delegated, so a batch naming an unknown role simply continues
because no publish is ever rejected for it. -/
theorem c8_no_role_validation (env : String → Option String)
    (personaOf : String → String) :
    (initAgent env).agent_role = (env "AGENT_ROLE").getD "unknown" ∧
    (∀ (t : AgentTask) (s : ChannelStore),
      delegate_task (fun _ => false) personaOf t s =
        Except.ok (publishTask t.agent_role (mkPayload personaOf t) s,
          "delegated")) := by
  exact ⟨rfl, fun t s => rfl⟩

/-- C9: a task payload lacking the task key makes execute_task raise before
the result record is constructed, so however many poll ticks elapse the
result slot stays as it was (zero results) and the task slot still holds the
same payload, which the worker re-reads and re-fails on each cycle. -/
theorem c9_missing_task_key_stalls (a : Agent)
    (cap : String → Ctx → Except String String) (p : TaskPayload)
    (rs : Option ResultRecord) (n : Nat) (h : p.task = none) :
    execute_task a cap p = Except.error "KeyError: task" ∧
    (runWorker a cap (List.replicate n false)
      ⟨Phase.idle, ⟨some p, rs⟩⟩).slots = ⟨some p, rs⟩ := by
  refine ⟨by simp [execute_task, h], ?_⟩
  rcases stall_invariant a cap p rs h n ⟨Phase.idle, ⟨some p, rs⟩⟩ (Or.inl rfl)
    with heq | heq <;> rw [heq]

/-- C9 witness: six poll ticks over the keyless payload change nothing. -/
theorem c9_missing_task_key_stalls_witness :
    keylessPayload.task = none ∧
    (execute_task sampleAgent sampleCap keylessPayload =
        Except.error "KeyError: task" ∧
      (runWorker sampleAgent sampleCap (List.replicate 6 false)
        ⟨Phase.idle, ⟨some keylessPayload, none⟩⟩).slots =
        ⟨some keylessPayload, none⟩) :=
  ⟨rfl, c9_missing_task_key_stalls sampleAgent sampleCap keylessPayload none 6
    rfl⟩

/-- C10: an unrecognised specialization falls into the else branch of the
dispatch: the result is completed with empty errors and the generic
placeholder string as output, never an error record, and the capability and
the context are never consulted. -/
theorem c10_unknown_specialization_generic (a : Agent)
    (cap : String → Ctx → Except String String) (p : TaskPayload)
    (desc : String) (hk : a.specialist_type ∉ knownSpecTypes)
    (ht : p.task = some desc) :
    execute_task a cap p =
      Except.ok ⟨a.agent_id, a.agent_role, desc, "completed",
        some ("Generic processing for " ++ a.specialist_type), []⟩ := by
  simp [execute_task, ht, runBranch, hk]

/-- C10 witness: the defaulted specialization general is not one of the
seven known branch names. -/
theorem c10_unknown_specialization_generic_witness :
    sampleAgent.specialist_type ∉ knownSpecTypes ∧
    samplePayload.task = some "d" ∧
    execute_task sampleAgent sampleCap samplePayload =
      Except.ok ⟨"unknown-001", "unknown", "d", "completed",
        some ("Generic processing for " ++ sampleAgent.specialist_type), []⟩ :=
  ⟨by decide, rfl,
    c10_unknown_specialization_generic sampleAgent sampleCap samplePayload "d"
      (by decide) rfl⟩

end Hive
